import Mathlib

/-!
Shallow embedding of the S3PolicyManager policy pipeline

This file models, in Lean, the parts of the TypeScript repository that the
verified claims are about:

* CIDR / IP helpers (`src/shared/context.ts`, `src/shared/cidr.ts`),
* the policy repository over the tenant-partitioned record store
  (`src/shared/repository.ts`, context-taking variant),
* the CIDR blacklist cache (`src/shared/cidr-cache.ts`) and its callers,
* the SQS processor workflow: blacklist gate, validation, publish, rule
  indexing (`src/lambdas/sqs-processor/sqs-processor.ts`, the variant with
  the inline blacklist gate), and
* the CRUD DELETE handler (`src/lambdas/api-handler/api-handler.ts`).

The DynamoDB tables are modelled as association lists of records; each
repository operation returns its result together with the table state after
the call, so that conditional-write failures provably leave the store
unchanged.  JavaScript truthiness on optional strings is modelled
explicitly (absent or empty string is falsy).  The simulated external
publish call and the status write are given injected success flags so that
the failure paths of `publishPolicy` are reachable in the model.
-/

namespace S3PM

/-- JavaScript truthiness of an optional string: `undefined` and the empty
string are falsy. -/
def truthy : Option String → Bool
  | none => false
  | some s => s ≠ ""

/-- JavaScript `a || b` for an optional string `a` with a string default:
returns `a` unless it is absent or empty. -/
def jsOrStr : Option String → String → String
  | none, d => d
  | some s, d => if s = "" then d else s

/-- Template-literal rendering of an optional string: JavaScript prints
`undefined` for an absent value inside a template string. -/
def jsTemplate : Option String → String
  | none => "undefined"
  | some s => s

/-- Decimal value of a list of digit characters. -/
def digitsToNat (ds : List Char) : Nat :=
  ds.foldl (fun acc c => 10 * acc + (c.toNat - '0'.toNat)) 0

/-- JavaScript whitespace for `parseInt` / `trim` (the common ASCII cases). -/
def jsWhitespace (c : Char) : Bool :=
  c = ' ' || c = '\t' || c = '\n' || c = '\r'

/-- Split a character list on a separator character, JavaScript
`String.prototype.split` semantics for a one-character separator (also the
semantics of `String.splitOn` there; recursive on the list so that proofs
and witnesses evaluate by kernel reduction). -/
def jsSplitOnChar (sep : Char) : List Char → List (List Char)
  | [] => [[]]
  | c :: cs =>
    let rest := jsSplitOnChar sep cs
    if c = sep then [] :: rest
    else
      match rest with
      | [] => [[c]]
      | h :: t => (c :: h) :: t

/-- `split` of a string on a one-character separator. -/
def splitOnChar (sep : Char) (s : String) : List String :=
  (jsSplitOnChar sep s.data).map fun l => ⟨l⟩

/-- JavaScript `String.prototype.trim` (over the ASCII whitespace above). -/
def jsTrim (s : String) : String :=
  ⟨((s.data.dropWhile jsWhitespace).reverse.dropWhile jsWhitespace).reverse⟩

/-- JavaScript `String.prototype.toLowerCase` (ASCII case mapping). -/
def jsToLower (s : String) : String :=
  ⟨s.data.map Char.toLower⟩

/-- JavaScript `parseInt(s, 10)`: skip leading whitespace, read an optional
sign and then the longest run of decimal digits; `none` models `NaN`. -/
def jsParseInt (s : String) : Option Int :=
  match s.data.dropWhile jsWhitespace with
  | [] => none
  | c :: rest =>
    let (sign, digits) :=
      if c = '-' then ((-1 : Int), rest)
      else if c = '+' then ((1 : Int), rest)
      else ((1 : Int), c :: rest)
    let ds := digits.takeWhile Char.isDigit
    if ds.isEmpty then none else some (sign * (digitsToNat ds : Int))

/-- `ipToNumber` of `src/shared/context.ts` / `src/shared/cidr.ts`: split the
dotted-quad string on `.`, require exactly four parts, parse each with
`parseInt` and require `0..255`, and fold big-endian into an unsigned 32-bit
value (the JavaScript code reduces with `(acc << 8) + num` and finishes with
`>>> 0`; with four octets this equals the plain value, kept `% 2^32`).
`none` models a thrown error. -/
def ipToNumber (ip : String) : Option Nat :=
  let parts := splitOnChar '.' ip
  if parts.length ≠ 4 then none
  else
    parts.foldlM
      (fun acc part =>
        match jsParseInt part with
        | none => none
        | some n =>
          if n < 0 || n > 255 then none
          else some ((acc * 256 + n.toNat) % 2 ^ 32))
      0

/-- `isIpInCidr` of `src/shared/context.ts` (identical to
`CidrUtils.isIpInCidrBlock` of `src/shared/cidr.ts`): split the CIDR on `/`,
parse the prefix length, reject outside `0..32`, convert both addresses and
compare under the prefix mask.  JavaScript computes the mask with
`(0xFFFFFFFF << (32 - prefix)) >>> 0`, and `<<` reduces its shift count
modulo 32, so a `/0` prefix yields the full mask; kept faithfully.  Any
parse failure returns `false`. -/
def isIpInCidr (ip cidr : String) : Bool :=
  match splitOnChar '/' cidr with
  | network :: prefixStr :: _ =>
    match jsParseInt prefixStr with
    | none => false
    | some pfx =>
      if pfx < 0 || pfx > 32 then false
      else
        match ipToNumber ip, ipToNumber network with
        | some ipNum, some networkNum =>
          let mask := (0xFFFFFFFF <<< ((32 - pfx.toNat) % 32)) % 2 ^ 32
          ipNum &&& mask == networkNum &&& mask
        | _, _ => false
  | _ => false

/-- One octet of the IPv4 validation regex of `CidrUtils.isValidIpAddress`:
`25[0-5]|2[0-4][0-9]|[01]?[0-9][0-9]?`. -/
def isValidOctet (s : String) : Bool :=
  match s.data with
  | [a] => a.isDigit
  | [a, b] => a.isDigit && b.isDigit
  | [a, b, c] =>
    ((a = '0' || a = '1') && b.isDigit && c.isDigit)
      || (a = '2' && ('0' ≤ b && b ≤ '4') && c.isDigit)
      || (a = '2' && b = '5' && ('0' ≤ c && c ≤ '5'))
  | _ => false

/-- `CidrUtils.isValidIpAddress`: the anchored regex accepts exactly the
strings made of four valid octets joined by dots. -/
def isValidIpAddress (ip : String) : Bool :=
  match splitOnChar '.' ip with
  | [a, b, c, d] => isValidOctet a && isValidOctet b && isValidOctet c && isValidOctet d
  | _ => false

/-- `RequestContextManager.isIpBlacklisted` of `src/shared/context.ts` over a
given cached CIDR list: an empty list short-circuits to `false`, otherwise
the IP is tested against each CIDR block in order. -/
def isIpBlacklisted (cidrList : List String) (ip : String) : Bool :=
  if cidrList.isEmpty then false
  else cidrList.any fun cidr => isIpInCidr ip cidr

/-- `CidrUtils.findMatchingCidr`: first CIDR of the list containing the IP,
`none` when the IP is invalid or nothing matches. -/
def findMatchingCidr (ip : String) (cidrList : List String) : Option String :=
  if !isValidIpAddress ip then none
  else cidrList.find? fun cidr => isIpInCidr ip cidr

/-! ## Data model (`src/shared/types.ts`) -/

/-- Time restriction of a policy rule. -/
structure TimeRestriction where
  not_between : String × String
  days : List String
deriving DecidableEq

/-- Tracking configuration of a policy rule. -/
structure TrackConfig where
  log : Bool
  comment : String
deriving DecidableEq

/-- Rule source: a user identifier and/or an IP; the optional fields model
`user?: string` / `ip?: string`. -/
structure RuleSource where
  user : Option String
  ip : Option String
deriving DecidableEq

/-- Rule destination. -/
structure RuleDestination where
  domains : Option String
deriving DecidableEq

/-- A single access-control rule embedded in a policy. -/
structure PolicyRule where
  id : String
  name : String
  source : RuleSource
  destination : RuleDestination
  time : TimeRestriction
  action : String
  track : TrackConfig
deriving DecidableEq

/-- A policy, as stored inside `PolicyContent`. -/
structure Policy where
  _id : String
  name : String
  description : String
  enabled : Bool
  created : String
  updated : String
  createdBy : String
  updatedBy : String
  status : String
  rules : List PolicyRule
deriving DecidableEq

/-- A DynamoDB record of the Policies table.  `PolicyContent` is stored as a
JSON string in the code and modelled parsed; `State` is the record-level
lifecycle field, distinct from the `status` field inside the content. -/
structure PolicyRecord where
  PK : String
  SK : String
  PolicyID : String
  TenantID : String
  PolicyContent : Policy
  State : String
  Created : String
  Updated : String
  CreatedBy : String
  UpdatedBy : String
deriving DecidableEq

/-- The Policies table: a list of records looked up by the `(PK, SK)` key. -/
abbrev Store := List PolicyRecord

/-- Event type of a queued policy event (`SQSEvent.eventType`, validated by
the schema to one of the three literals). -/
inductive EventType
  | create
  | update
  | delete
deriving DecidableEq

/-- The string the code switches on. -/
def EventType.name : EventType → String
  | .create => "create"
  | .update => "update"
  | .delete => "delete"

/-- A queued policy event (`SQSEvent` of `src/shared/types.ts`). -/
structure SQSPolicyEvent where
  eventType : EventType
  policyId : String
  tenantId : String
  timestamp : String
  triggeredBy : String
deriving DecidableEq

/-- Per-invocation request context: tenant identity, actor identity, the
CIDR blacklist loaded by `initializeFromEvent`, and the user-display mapping
used by `UserDisplayHelper.getUserDisplayName` (identity when no mapping is
configured). -/
structure RequestContext where
  tenantId : String
  username : String
  cidrBlackList : List String := []
  displayName : String → String := fun s => s

/-- Domain errors raised by the repository layer (`src/shared/types.ts`);
`internal` stands for a plain `Error`. -/
inductive RepoError
  | notFound (msg : String)
  | conflict (msg : String)
  | internal (msg : String)
deriving DecidableEq

/-- The message carried by a repository error. -/
def RepoError.message : RepoError → String
  | .notFound m => m
  | .conflict m => m
  | .internal m => m

/-! ## Policy repository (`src/shared/repository.ts`) -/

/-- Partition key of a policy record: `TENANT#tenantId`. -/
def policyKeyPK (tenantId : String) : String := "TENANT#" ++ tenantId

/-- Sort key of a policy record: `POLICY#policyId`. -/
def policyKeySK (policyId : String) : String := "POLICY#" ++ policyId

/-- The `GetCommand` lookup: first record of the table with the given
`(PK, SK)` key. -/
def findRecord (store : Store) (tenantId policyId : String) : Option PolicyRecord :=
  store.find? fun r => r.PK == policyKeyPK tenantId && r.SK == policyKeySK policyId

/-- `UserDisplayHelper.transformUserFields` (`src/shared/auth.ts`): rewrite
the truthy `createdBy` / `updatedBy` fields through the display-name
mapping. -/
def transformUserFields (ctx : RequestContext) (p : Policy) : Policy :=
  { p with
    createdBy := if p.createdBy ≠ "" then ctx.displayName p.createdBy else p.createdBy
    updatedBy := if p.updatedBy ≠ "" then ctx.displayName p.updatedBy else p.updatedBy }

/-- `PolicyRepository.mapRecordToPolicy`: parse `PolicyContent` (modelled as
already parsed) and transform the audit fields to display names. -/
def mapRecordToPolicy (ctx : RequestContext) (record : PolicyRecord) : Policy :=
  transformUserFields ctx record.PolicyContent

/-- `PolicyRepository.getPolicyById`: get by `(TENANT#ctx, POLICY#id)` key,
`NotFoundError` when absent; `validateTenantAccess` throws a plain `Error`
on a tenant mismatch which the catch block rethrows as a generic failure;
a record whose `State` is `deleted` is reported as `NotFoundError`. -/
def getPolicyById (ctx : RequestContext) (store : Store) (policyId : String) :
    Except RepoError Policy :=
  match findRecord store ctx.tenantId policyId with
  | none => .error (.notFound ("Policy with ID " ++ policyId ++ " not found"))
  | some record =>
    if record.TenantID ≠ ctx.tenantId then
      .error (.internal "Failed to retrieve policy")
    else if record.State = "deleted" then
      .error (.notFound ("Policy with ID " ++ policyId ++ " not found"))
    else
      .ok (mapRecordToPolicy ctx record)

/-- `PolicyRepository.getAllPolicies`: all records of the context tenant
whose `State` is not `deleted` (query on the tenant index with the
`State <> deleted` filter), mapped to policies.  The creation-time ordering
of the query is irrelevant to the claims and not modelled. -/
def getAllPolicies (ctx : RequestContext) (store : Store) : List Policy :=
  (store.filter fun r => r.TenantID == ctx.tenantId && r.State != "deleted").map
    (mapRecordToPolicy ctx)

/-- Partial update of a policy (`Partial<Omit<Policy, ...>>`): only the
fields a caller of the repository actually sets. -/
structure PolicyUpdates where
  name : Option String := none
  description : Option String := none
  enabled : Option Bool := none
  status : Option String := none
  rules : Option (List PolicyRule) := none
deriving DecidableEq

/-- The merge `{...existingPolicy, ...updates}` of
`PolicyRepository.updatePolicy`, with `_id`, `created`, `createdBy`
preserved and `updated` / `updatedBy` refreshed. -/
def mergePolicy (existing : Policy) (updates : PolicyUpdates)
    (policyId now username : String) : Policy :=
  { _id := policyId
    name := updates.name.getD existing.name
    description := updates.description.getD existing.description
    enabled := updates.enabled.getD existing.enabled
    created := existing.created
    updated := now
    createdBy := existing.createdBy
    updatedBy := username
    status := updates.status.getD existing.status
    rules := updates.rules.getD existing.rules }

/-- `PolicyRepository.updatePolicy`: read-modify-write.  First
`getPolicyById` (propagating its errors), then a conditional `UpdateCommand`
on the key, guarded by `attribute_exists(PK) AND TenantID = :tenantId AND
State <> deleted`; a failed condition surfaces as `NotFoundError`.  The
write sets `PolicyContent`, `Updated` and `UpdatedBy` only (`State` is left
alone).  Returns the result together with the table after the call. -/
def updatePolicy (ctx : RequestContext) (now : String) (store : Store)
    (policyId : String) (updates : PolicyUpdates) :
    Except RepoError Policy × Store :=
  match getPolicyById ctx store policyId with
  | .error e => (.error e, store)
  | .ok existingPolicy =>
    let updatedPolicy := mergePolicy existingPolicy updates policyId now ctx.username
    match findRecord store ctx.tenantId policyId with
    | none =>
      (.error (.notFound ("Policy with ID " ++ policyId ++ " not found or access denied")),
       store)
    | some record =>
      if record.TenantID == ctx.tenantId && record.State != "deleted" then
        (.ok updatedPolicy,
         store.map fun r =>
           if r.PK == policyKeyPK ctx.tenantId && r.SK == policyKeySK policyId then
             { r with PolicyContent := updatedPolicy, Updated := now, UpdatedBy := ctx.username }
           else r)
      else
        (.error (.notFound ("Policy with ID " ++ policyId ++ " not found or access denied")),
         store)

/-- `PolicyRepository.deletePolicy` (soft delete): first `getPolicyById`
(propagating its errors), then a conditional `UpdateCommand` setting
`State = deleted`, guarded by `attribute_exists(PK) AND TenantID = :tenantId
AND State <> deleted`; a failed condition surfaces as `NotFoundError`. -/
def deletePolicy (ctx : RequestContext) (now : String) (store : Store)
    (policyId : String) : Except RepoError Unit × Store :=
  match getPolicyById ctx store policyId with
  | .error e => (.error e, store)
  | .ok _ =>
    match findRecord store ctx.tenantId policyId with
    | none =>
      (.error (.notFound ("Policy with ID " ++ policyId ++ " not found or access denied")),
       store)
    | some record =>
      if record.TenantID == ctx.tenantId && record.State != "deleted" then
        (.ok (),
         store.map fun r =>
           if r.PK == policyKeyPK ctx.tenantId && r.SK == policyKeySK policyId then
             { r with State := "deleted", Updated := now, UpdatedBy := ctx.username }
           else r)
      else
        (.error (.notFound ("Policy with ID " ++ policyId ++ " not found or access denied")),
         store)

/-! ## Workflow validation (`validatePolicy` of
`src/lambdas/sqs-processor/sqs-processor.ts`) -/

/-- Validation outcome (`ValidationResult` of `src/shared/types.ts`). -/
structure ValidationResult where
  isValid : Bool
  issues : List String
deriving DecidableEq

/-- The issues pushed for one rule (`policy.rules.forEach` body), in push
order; `idx` is the zero-based position, messages use `idx + 1`. -/
def ruleIssues (idx : Nat) (rule : PolicyRule) : List String :=
  (if rule.id = "" || jsTrim rule.id = "" then
    ["Rule " ++ toString (idx + 1) ++ ": ID is required"] else [])
  ++ (if rule.name = "" || jsTrim rule.name = "" then
    ["Rule " ++ toString (idx + 1) ++ ": Name is required"] else [])
  ++ (if rule.action = "" || !(["allow", "block"].contains rule.action) then
    ["Rule " ++ toString (idx + 1) ++ ": Action must be 'allow' or 'block'"] else [])
  ++ (if !truthy rule.source.user && !truthy rule.source.ip then
    ["Rule " ++ toString (idx + 1) ++ ": Either source user or IP address is required"] else [])
  ++ (if !truthy rule.destination.domains then
    ["Rule " ++ toString (idx + 1) ++ ": Destination domains are required"] else [])

/-- The content checks of `validatePolicy` that run for create and update:
basic policy checks followed by the per-rule checks, in push order. -/
def contentIssues (policy : Policy) : List String :=
  (if policy.name = "" || jsTrim policy.name = "" then ["Policy name is required"] else [])
  ++ (if policy.description = "" || jsTrim policy.description = "" then
    ["Policy description is required"] else [])
  ++ (if policy.rules.isEmpty then ["Policy must have at least one rule"] else [])
  ++ (policy.rules.enum.flatMap fun p => ruleIssues p.1 p.2)

/-- The duplicate-name business rule of `validatePolicy`: find another
policy of the tenant with a different id and the same name
case-insensitively. -/
def duplicateNameIssue (allPolicies : List Policy) (policyId : String)
    (policy : Policy) : List String :=
  match allPolicies.find? fun p =>
      p._id != policyId && jsToLower p.name == jsToLower policy.name with
  | some _ => ["Policy name '" ++ policy.name ++ "' already exists"]
  | none => []

/-- The operation-specific checks of `validatePolicy` (the `switch` at the
end of the `try` block). -/
def operationIssues (op : EventType) (policy : Policy) : List String :=
  match op with
  | .update => if policy.status = "deleted" then ["Cannot update deleted policies"] else []
  | .delete => if policy.status = "deleted" then ["Policy is already deleted"] else []
  | .create => []

/-- The inline `validatePolicy` of the SQS processor: fetch the policy (a
fetch failure is caught and becomes the single retrieval issue, skipping
every later check), run the content checks and the duplicate-name check for
create and update only, then the operation-specific checks; `isValid` holds
exactly when no issue was pushed. -/
def validatePolicy (ctx : RequestContext) (store : Store) (policyId : String)
    (op : EventType) : ValidationResult :=
  let issues :=
    match getPolicyById ctx store policyId with
    | .error e => ["Failed to retrieve policy for validation: " ++ e.message]
    | .ok policy =>
      (if op = .create ∨ op = .update then
        contentIssues policy
          ++ duplicateNameIssue (getAllPolicies ctx store) policyId policy
       else [])
        ++ operationIssues op policy
  { isValid := issues.length == 0, issues := issues }

/-! ## Workflow publish (`publishPolicy` of
`src/lambdas/sqs-processor/sqs-processor.ts`) -/

/-- Result of the publish step. -/
structure PublishResult where
  success : Bool
  message : String
  policyId : String
  newStatus : Option String := none
deriving DecidableEq

/-- Success message per operation type. -/
def publishSuccessMessage : EventType → String
  | .create => "Policy successfully published to external systems"
  | .update => "Policy update successfully published to external systems"
  | .delete => "Policy deletion successfully published to external systems"

/-- The catch block of `publishPolicy`: for the create path only, attempt to
revert the status to `draft` (the revert is itself wrapped in try/catch and
its outcome ignored), then report failure. -/
def publishFailure (ctx : RequestContext) (now : String) (store : Store)
    (policyId : String) (op : EventType) (errMsg : String) :
    PublishResult × Store :=
  let store' :=
    if op = .create then
      (updatePolicy ctx now store policyId { status := some "draft" }).2
    else store
  ({ success := false
     message := "Failed to publish policy " ++ op.name ++ ": " ++ errMsg
     policyId := policyId },
   store')

/-- The inline `publishPolicy` of the SQS processor: fetch the policy,
simulate the external call (`simOk` injects its outcome), compute the new
status by operation type — create publishes, update publishes only from
`draft`, delete moves to `deleted` — and write it back through
`updatePolicy` (`writeOk` injects a backend failure of that write).  Any
exception lands in `publishFailure`. -/
def publishPolicy (ctx : RequestContext) (now : String) (store : Store)
    (policyId : String) (op : EventType) (simOk writeOk : Bool) :
    PublishResult × Store :=
  match getPolicyById ctx store policyId with
  | .error e => publishFailure ctx now store policyId op e.message
  | .ok policy =>
    if !simOk then
      publishFailure ctx now store policyId op "External system publish failed"
    else
      let newStatus :=
        match op with
        | .create => "published"
        | .update => if policy.status = "draft" then "published" else policy.status
        | .delete => "deleted"
      if !writeOk then
        publishFailure ctx now store policyId op "Failed to update policy"
      else
        match updatePolicy ctx now store policyId { status := some newStatus } with
        | (.error e, store') => publishFailure ctx now store' policyId op e.message
        | (.ok updatedPolicy, store') =>
          ({ success := true
             message := publishSuccessMessage op
             policyId := policyId
             newStatus := some updatedPolicy.status },
           store')

/-! ## Rule-index repository (`UserPolicyRepository` of
`src/shared/repository.ts`, the variant with the source-identifier
fallback) -/

/-- A denormalized per-rule record of the UserPolicies table. -/
structure UserPolicyRecord where
  PK : String
  SK : String
  TenantID : String
  RuleID : String
  RuleName : String
  Source : String
  Destination : Option String
  Action : String
  TimeRestrictions : TimeRestriction
  TrackingConfig : TrackConfig
  PolicyID : String
  PolicyName : String
  Created : String
  Updated : String
  CreatedBy : String
  UpdatedBy : String
deriving DecidableEq

/-- The UserPolicies table. -/
abbrev UserStore := List UserPolicyRecord

/-- The record built for one rule by `savePolicyRules`: the source
identifier is `rule.source.user || rule.source.ip || 'unknown'` and the
partition key is the `tenantId#sourceIdentifier#destination` template
string. -/
def mkUserPolicyRecord (tenantId triggeredBy now : String) (policy : Policy)
    (rule : PolicyRule) : UserPolicyRecord :=
  let sourceIdentifier := jsOrStr rule.source.user (jsOrStr rule.source.ip "unknown")
  { PK := tenantId ++ "#" ++ sourceIdentifier ++ "#" ++ jsTemplate rule.destination.domains
    SK := rule.id
    TenantID := tenantId
    RuleID := rule.id
    RuleName := rule.name
    Source := sourceIdentifier
    Destination := rule.destination.domains
    Action := rule.action
    TimeRestrictions := rule.time
    TrackingConfig := rule.track
    PolicyID := policy._id
    PolicyName := policy.name
    Created := now
    Updated := now
    CreatedBy := triggeredBy
    UpdatedBy := triggeredBy }

/-- DynamoDB `PutRequest` semantics: replace the item with the same
`(PK, SK)` primary key, or append when none exists. -/
def putUserPolicyRecord (ustore : UserStore) (rec : UserPolicyRecord) : UserStore :=
  if ustore.any fun r => r.PK == rec.PK && r.SK == rec.SK then
    ustore.map fun r => if r.PK == rec.PK && r.SK == rec.SK then rec else r
  else ustore ++ [rec]

/-- The batching loop of `savePolicyRules`: slices of at most 25 records
(`batchSize = 25`, the DynamoDB batch-write limit). -/
def chunk25 : List UserPolicyRecord → List (List UserPolicyRecord)
  | [] => []
  | x :: xs => ((x :: xs).take 25) :: chunk25 ((x :: xs).drop 25)
termination_by l => l.length
decreasing_by simp; omega

/-- `UserPolicyRepository.deletePolicyRules`: the deletion step is skipped
in the code (records are only overwritten on update), so the table is
returned unchanged. -/
def deletePolicyRules (ustore : UserStore) (_policyId _tenantId : String) : UserStore :=
  ustore

/-- `UserPolicyRepository.savePolicyRules`: clear prior entries (a no-op),
return early when the policy has no rules, otherwise build one record per
rule, batch them in groups of at most 25 and issue the batch writes in
order.  Returns the table after the call together with the issued
batches. -/
def savePolicyRules (ustore : UserStore) (policy : Policy)
    (tenantId triggeredBy now : String) :
    UserStore × List (List UserPolicyRecord) :=
  let ustore := deletePolicyRules ustore policy._id tenantId
  if policy.rules.length = 0 then (ustore, [])
  else
    let userPolicyRecords := policy.rules.map (mkUserPolicyRecord tenantId triggeredBy now policy)
    let batches := chunk25 userPolicyRecords
    (batches.foldl (fun st batch => batch.foldl putUserPolicyRecord st) ustore, batches)

/-! ## Blacklist gate (`checkSourceIpBlacklist` and
`extractSourceIpsFromPolicy` of `src/lambdas/sqs-processor/sqs-processor.ts`) -/

/-- First-occurrence deduplication, as `[...new Set(sourceIps)]`. -/
def dedupFirst (l : List String) (seen : List String := []) : List String :=
  match l with
  | [] => []
  | x :: xs => if x ∈ seen then dedupFirst xs seen else x :: dedupFirst xs (x :: seen)

/-- `extractSourceIpsFromPolicy`: fetch the policy (a fetch failure is
caught and yields the empty list), collect each rule source IP that is
truthy and passes `isValidIpAddress`, and deduplicate keeping first
occurrences. -/
def extractSourceIpsFromPolicy (ctx : RequestContext) (store : Store)
    (policyId : String) : List String :=
  match getPolicyById ctx store policyId with
  | .error _ => []
  | .ok policy =>
    let sourceIps := policy.rules.filterMap fun rule =>
      if truthy rule.source.ip && isValidIpAddress (rule.source.ip.getD "") then
        some (rule.source.ip.getD "")
      else none
    dedupFirst sourceIps

/-- Outcome of the blacklist gate. -/
structure BlacklistCheckResult where
  isBlacklisted : Bool
  sourceIp : Option String := none
  matchedCidr : Option String := none
deriving DecidableEq

/-- `checkSourceIpBlacklist`: extract the source IPs (none short-circuits to
not blacklisted), then test each against the cached CIDR blacklist of the
context; the first blacklisted IP, if any, is reported together with the
matching CIDR. -/
def checkSourceIpBlacklist (ctx : RequestContext) (store : Store)
    (event : SQSPolicyEvent) : BlacklistCheckResult :=
  let sourceIps := extractSourceIpsFromPolicy ctx store event.policyId
  if sourceIps.isEmpty then { isBlacklisted := false }
  else
    match sourceIps.find? fun ip => isIpBlacklisted ctx.cidrBlackList ip with
    | some ip =>
      { isBlacklisted := true
        sourceIp := some ip
        matchedCidr := findMatchingCidr ip ctx.cidrBlackList }
    | none => { isBlacklisted := false, sourceIp := sourceIps.head? }

/-! ## The event workflow (`processPolicyEvent` of
`src/lambdas/sqs-processor/sqs-processor.ts`) -/

/-- The context `processRecord` builds through
`RequestContextManager.initializeFromEvent`: tenant and actor come from the
event, the CIDR blacklist is whatever `loadCidrBlacklist` produced. -/
def mkEventContext (event : SQSPolicyEvent) (cidrs : List String) : RequestContext :=
  { tenantId := event.tenantId
    username := event.triggeredBy
    cidrBlackList := cidrs }

deriving instance DecidableEq for Except

/-- Everything observable about one `processPolicyEvent` call: the thrown or
returned outcome, both tables after the call, and which workflow steps were
invoked. -/
structure ProcessOutcome where
  result : Except String Unit
  store : Store
  ustore : UserStore
  validateCalled : Bool
  publishCalled : Bool
  indexCalled : Bool
deriving DecidableEq

/-- `processPolicyEvent` (the variant with the inline blacklist gate):
step 0 runs the blacklist gate and returns successfully — skipping
validation, publish and the index update — when a source IP is blacklisted;
step 1 validates and throws on any issue; step 2 publishes and throws when
publishing reports failure; step 3 re-fetches the policy and saves
(create/update) or deletes (delete) the rule index.  Any thrown error is
wrapped by the outer catch. -/
def processPolicyEvent (ctx : RequestContext) (now : String) (store : Store)
    (ustore : UserStore) (event : SQSPolicyEvent) (simOk writeOk : Bool) :
    ProcessOutcome :=
  let chk := checkSourceIpBlacklist ctx store event
  if chk.isBlacklisted then
    { result := .ok (), store := store, ustore := ustore
      validateCalled := false, publishCalled := false, indexCalled := false }
  else
    let validationResult := validatePolicy ctx store event.policyId event.eventType
    if !validationResult.isValid then
      { result := .error ("Failed to process policy workflow: Policy validation failed: "
          ++ String.intercalate ", " validationResult.issues)
        store := store, ustore := ustore
        validateCalled := true, publishCalled := false, indexCalled := false }
    else
      match publishPolicy ctx now store event.policyId event.eventType simOk writeOk with
      | (publishResult, store') =>
        if !publishResult.success then
          { result := .error ("Failed to process policy workflow: Policy publishing failed: "
              ++ publishResult.message)
            store := store', ustore := ustore
            validateCalled := true, publishCalled := true, indexCalled := false }
        else
          match getPolicyById ctx store' event.policyId with
          | .error e =>
            { result := .error ("Failed to process policy workflow: " ++ e.message)
              store := store', ustore := ustore
              validateCalled := true, publishCalled := true, indexCalled := false }
          | .ok policy =>
            match event.eventType with
            | .create | .update =>
              { result := .ok (), store := store'
                ustore := (savePolicyRules ustore policy event.tenantId event.triggeredBy now).1
                validateCalled := true, publishCalled := true, indexCalled := true }
            | .delete =>
              { result := .ok (), store := store'
                ustore := deletePolicyRules ustore event.policyId event.tenantId
                validateCalled := true, publishCalled := true, indexCalled := true }

/-! ## CIDR blacklist cache (`src/shared/cidr-cache.ts`) and its callers -/

/-- A stored CIDR blacklist entry (`Cidr` of `src/shared/types.ts`). -/
structure Cidr where
  cidr : String
  created : String := ""
  updated : String := ""
  createdBy : String := ""
  updatedBy : String := ""
deriving DecidableEq

/-- The `CidrCache` static maps: per-tenant CIDR lists and load
timestamps. -/
structure CidrCacheState where
  cache : List (String × List String) := []
  lastLoaded : List (String × Nat) := []

/-- `Map.set` semantics over an association list. -/
def setAssoc {α : Type} (l : List (String × α)) (k : String) (v : α) :
    List (String × α) :=
  if l.any fun p => p.1 == k then
    l.map fun p => if p.1 == k then (k, v) else p
  else l ++ [(k, v)]

/-- The cache TTL: five minutes in milliseconds. -/
def CACHE_TTL : Nat := 5 * 60 * 1000

/-- `CidrCache.isCacheValid`: a tenant entry is valid when it was loaded
less than `CACHE_TTL` ago. -/
def isCacheValid (st : CidrCacheState) (now : Nat) (tenantId : String) : Bool :=
  match st.lastLoaded.lookup tenantId with
  | none => false
  | some t => now - t < CACHE_TTL

/-- `CidrCache.refreshCache`: fetch the tenant CIDRs from the repository
(`backend` models `CIDRRepository.getAllCidr`); on success cache the list,
on failure cache the empty list to prevent repeated failures — and rethrow
the error. -/
def refreshCache (backend : String → Except String (List Cidr)) (now : Nat)
    (st : CidrCacheState) (tenantId : String) :
    Except String Unit × CidrCacheState :=
  match backend tenantId with
  | .ok cidrRecords =>
    let cidrList := cidrRecords.map fun r => r.cidr
    (.ok (),
     { cache := setAssoc st.cache tenantId cidrList
       lastLoaded := setAssoc st.lastLoaded tenantId now })
  | .error e =>
    (.error e,
     { cache := setAssoc st.cache tenantId []
       lastLoaded := setAssoc st.lastLoaded tenantId now })

/-- `CidrCache.getCidrList`: return the cached list when the tenant entry is
still valid and present; otherwise refresh — propagating a refresh error —
and return the freshly cached list (defaulting to empty). -/
def getCidrList (backend : String → Except String (List Cidr)) (now : Nat)
    (st : CidrCacheState) (tenantId : String) :
    Except String (List String) × CidrCacheState :=
  let cached := if isCacheValid st now tenantId then st.cache.lookup tenantId else none
  match cached with
  | some cachedData => (.ok cachedData, st)
  | none =>
    match refreshCache backend now st tenantId with
    | (.ok _, st') => (.ok ((st'.cache.lookup tenantId).getD []), st')
    | (.error e, st') => (.error e, st')

/-- `RequestContextManager.loadCidrBlacklist` (`src/shared/context.ts`):
load the tenant CIDR list through the cache; an error is caught and the
context continues with the empty list. -/
def loadCidrBlacklist (backend : String → Except String (List Cidr)) (now : Nat)
    (st : CidrCacheState) (tenantId : String) :
    List String × CidrCacheState :=
  match getCidrList backend now st tenantId with
  | (.ok cidrList, st') => (cidrList, st')
  | (.error _, st') => ([], st')

/-! ## CRUD DELETE handler (`deletePolicy` of
`src/lambdas/api-handler/api-handler.ts`) -/

/-- The DELETE handler: soft-delete through the repository, then publish a
`delete` event built by `SQSService.publishPolicyEvent` from the request
context.  Returns the handler result, the emitted event when one was sent,
and the table after the call. -/
def apiDeletePolicy (ctx : RequestContext) (now : String) (store : Store)
    (policyId : String) :
    Except RepoError (String × SQSPolicyEvent) × Store :=
  match deletePolicy ctx now store policyId with
  | (.error e, store') => (.error e, store')
  | (.ok _, store') =>
    let event : SQSPolicyEvent :=
      { eventType := .delete
        policyId := policyId
        tenantId := ctx.tenantId
        timestamp := now
        triggeredBy := ctx.username }
    (.ok ("Policy deleted successfully", event), store')

/-! ## Concrete fixtures used by the witness theorems -/

/-- A well-formed rule keyed by a user source. -/
def wRule : PolicyRule :=
  { id := "r1", name := "Rule one"
    source := { user := some "alice", ip := none }
    destination := { domains := some "facebook.com" }
    time := { not_between := ("09:00", "17:00"), days := ["Mon"] }
    action := "block", track := { log := true, comment := "" } }

/-- A well-formed rule keyed by an IP source. -/
def wRuleIp : PolicyRule :=
  { wRule with id := "r2", name := "Rule two"
               source := { user := none, ip := some "10.5.5.5" } }

/-- A draft policy with one user-sourced rule. -/
def wPolicy : Policy :=
  { _id := "p1", name := "Block FB", description := "Blocks facebook"
    enabled := true, created := "t0", updated := "t0"
    createdBy := "alice", updatedBy := "alice"
    status := "draft", rules := [wRule] }

/-- A draft policy with one IP-sourced rule. -/
def wPolicyIp : Policy :=
  { wPolicy with rules := [wRuleIp] }

/-- The stored record of `wPolicy` for tenant `t1`. -/
def wRecord : PolicyRecord :=
  { PK := policyKeyPK "t1", SK := policyKeySK "p1", PolicyID := "p1"
    TenantID := "t1", PolicyContent := wPolicy, State := "created"
    Created := "t0", Updated := "t0", CreatedBy := "alice", UpdatedBy := "alice" }

/-- The stored record of `wPolicyIp` for tenant `t1`. -/
def wRecordIp : PolicyRecord :=
  { wRecord with PolicyContent := wPolicyIp }

/-- A rule violating two checks: unknown action, missing destination. -/
def wBadRule : PolicyRule :=
  { wRule with
    action := "drop"
    destination := { domains := none } }

/-- A policy violating three checks in total: empty description plus the
two rule violations of `wBadRule`. -/
def wBadPolicy : Policy :=
  { wPolicy with
    description := ""
    rules := [wBadRule] }

/-- The stored record of `wBadPolicy` for tenant `t1`. -/
def wBadRecord : PolicyRecord :=
  { wRecord with PolicyContent := wBadPolicy }

/-- A request context of tenant `t1`. -/
def wCtx : RequestContext := { tenantId := "t1", username := "alice" }

/-- A request context of tenant `t1` whose cached blacklist covers
`10.0.0.0/8`. -/
def wCtxBl : RequestContext :=
  { tenantId := "t1", username := "alice", cidrBlackList := ["10.0.0.0/8"] }

/-- A create event for `wPolicy`. -/
def wEventCreate : SQSPolicyEvent :=
  { eventType := .create, policyId := "p1", tenantId := "t1"
    timestamp := "t1", triggeredBy := "alice" }

/-! ## General lemmas -/

lemma strAppend_left_cancel {p a b : String} (h : p ++ a = p ++ b) : a = b := by
  rw [String.ext_iff] at h ⊢
  rw [String.data_append, String.data_append] at h
  exact List.append_cancel_left h

lemma policyKeyPK_inj {a b : String} (h : policyKeyPK a = policyKeyPK b) : a = b :=
  strAppend_left_cancel h

lemma mapRecordToPolicy_status (ctx : RequestContext) (r : PolicyRecord) :
    (mapRecordToPolicy ctx r).status = r.PolicyContent.status := rfl

lemma mapRecordToPolicy_rules (ctx : RequestContext) (r : PolicyRecord) :
    (mapRecordToPolicy ctx r).rules = r.PolicyContent.rules := rfl

lemma getPolicyById_ok_elim {ctx : RequestContext} {store : Store} {pid : String}
    {policy : Policy} (h : getPolicyById ctx store pid = .ok policy) :
    ∃ rec, findRecord store ctx.tenantId pid = some rec ∧
      rec.TenantID = ctx.tenantId ∧ rec.State ≠ "deleted" ∧
      policy = mapRecordToPolicy ctx rec := by
  unfold getPolicyById at h
  cases hf : findRecord store ctx.tenantId pid with
  | none => rw [hf] at h; exact absurd h (by simp)
  | some rec =>
    rw [hf] at h
    by_cases ht : rec.TenantID = ctx.tenantId
    · by_cases hs : rec.State = "deleted"
      · simp [ht, hs] at h
      · simp [ht, hs] at h
        exact ⟨rec, rfl, ht, hs, h.symm⟩
    · simp [ht] at h

lemma getPolicyById_ok_intro {ctx : RequestContext} {store : Store} {pid : String}
    {rec : PolicyRecord} (hf : findRecord store ctx.tenantId pid = some rec)
    (ht : rec.TenantID = ctx.tenantId) (hs : rec.State ≠ "deleted") :
    getPolicyById ctx store pid = .ok (mapRecordToPolicy ctx rec) := by
  simp [getPolicyById, hf, ht, hs]

lemma updatePolicy_fetch_ok {ctx : RequestContext} {store : Store} {pid : String}
    {policy : Policy} (now : String) (u : PolicyUpdates)
    (h : getPolicyById ctx store pid = .ok policy) :
    updatePolicy ctx now store pid u =
      (.ok (mergePolicy policy u pid now ctx.username),
       store.map fun r =>
         if r.PK == policyKeyPK ctx.tenantId && r.SK == policyKeySK pid then
           { r with
             PolicyContent := mergePolicy policy u pid now ctx.username
             Updated := now
             UpdatedBy := ctx.username }
         else r) := by
  obtain ⟨rec, hf, ht, hs, hp⟩ := getPolicyById_ok_elim h
  simp [updatePolicy, h, hf, ht, hs]

/-! ## C7: deleting an already-deleted policy -/

/-- C7: soft delete is guarded against repetition.  For a policy whose
stored record is already in state `deleted`, `deletePolicy` fails with
`NotFoundError` and returns the table unchanged, so `deleted` is
terminal. -/
theorem deletePolicy_already_deleted (ctx : RequestContext) (now : String)
    (store : Store) (pid : String) (rec : PolicyRecord)
    (hf : findRecord store ctx.tenantId pid = some rec)
    (ht : rec.TenantID = ctx.tenantId)
    (hdel : rec.State = "deleted") :
    (deletePolicy ctx now store pid).1 =
      .error (.notFound ("Policy with ID " ++ pid ++ " not found")) ∧
    (deletePolicy ctx now store pid).2 = store := by
  have hget : getPolicyById ctx store pid =
      .error (.notFound ("Policy with ID " ++ pid ++ " not found")) := by
    simp [getPolicyById, hf, ht, hdel]
  constructor <;> simp [deletePolicy, hget]

/-- Witness for C7 at a concrete store holding one already-deleted record. -/
theorem deletePolicy_already_deleted_witness :
    (deletePolicy { tenantId := "t1", username := "u" } "now"
        [{ PK := policyKeyPK "t1", SK := policyKeySK "p1", PolicyID := "p1",
           TenantID := "t1",
           PolicyContent :=
             { _id := "p1", name := "n", description := "d", enabled := true,
               created := "c", updated := "c", createdBy := "u",
               updatedBy := "u", status := "deleted", rules := [] },
           State := "deleted", Created := "c", Updated := "c",
           CreatedBy := "u", UpdatedBy := "u" }] "p1").1 =
      .error (.notFound ("Policy with ID " ++ "p1" ++ " not found")) :=
  (deletePolicy_already_deleted _ "now" _ "p1" _ (by rfl) (by rfl) (by rfl)).1

/-! ## C2: tenant isolation -/

/-- C2: tenant isolation.  When a policy with id `pid` is stored for tenant
`T1` (every record with that sort key belongs to `T1`, and the store is
well-formed in that each record sits in its own tenant partition), a
request context of a different tenant gets `NotFoundError` from
`getPolicyById`, `updatePolicy` and `deletePolicy`, and the two mutating
calls leave the store unchanged. -/
theorem tenant_isolation (ctx : RequestContext) (now : String) (store : Store)
    (pid T1 : String) (u : PolicyUpdates) (rec : PolicyRecord)
    (_hstored : rec ∈ store ∧ rec.SK = policyKeySK pid ∧ rec.TenantID = T1)
    (hwf : ∀ r ∈ store, r.PK = policyKeyPK r.TenantID)
    (honly : ∀ r ∈ store, r.SK = policyKeySK pid → r.TenantID = T1)
    (hne : ctx.tenantId ≠ T1) :
    getPolicyById ctx store pid =
      .error (.notFound ("Policy with ID " ++ pid ++ " not found")) ∧
    updatePolicy ctx now store pid u =
      (.error (.notFound ("Policy with ID " ++ pid ++ " not found")), store) ∧
    deletePolicy ctx now store pid =
      (.error (.notFound ("Policy with ID " ++ pid ++ " not found")), store) := by
  have hfind : findRecord store ctx.tenantId pid = none := by
    rw [findRecord, List.find?_eq_none]
    intro r hr
    simp only [Bool.and_eq_true, beq_iff_eq, not_and]
    intro hPK hSK
    have hT : r.TenantID = ctx.tenantId := policyKeyPK_inj ((hwf r hr).symm.trans hPK)
    exact hne (hT ▸ honly r hr hSK)
  have hget : getPolicyById ctx store pid =
      .error (.notFound ("Policy with ID " ++ pid ++ " not found")) := by
    simp [getPolicyById, hfind]
  refine ⟨hget, ?_, ?_⟩
  · simp [updatePolicy, hget]
  · simp [deletePolicy, hget]

/-- Witness for C2: a store holding one policy of tenant `t1`, accessed
with a context of tenant `t2`. -/
theorem tenant_isolation_witness :
    getPolicyById { tenantId := "t2", username := "u" } [wRecord] "p1" =
      .error (.notFound ("Policy with ID " ++ "p1" ++ " not found")) :=
  (tenant_isolation { tenantId := "t2", username := "u" } "now" [wRecord]
    "p1" "t1" {} wRecord
    ⟨by simp, rfl, rfl⟩
    (by intro r hr; simp at hr; subst hr; rfl)
    (by intro r hr _; simp at hr; subst hr; rfl)
    (by decide)).1

/-! ## C3: the next-status function of the publish step -/

/-- Modelled from the spec sentence "Compute next status: create →
`published`; update → `published` if currently `draft` else unchanged;
delete → `deleted`", to be compared with what `publishPolicy` computes. -/
def claimNextStatus : EventType → String → String
  | .create, _ => "published"
  | .update, s => if s = "draft" then "published" else s
  | .delete, _ => "deleted"

lemma publishPolicy_success_eq {ctx : RequestContext} {store : Store}
    {pid : String} {policy : Policy} (now : String) (op : EventType)
    (hfetch : getPolicyById ctx store pid = .ok policy) :
    publishPolicy ctx now store pid op true true =
      ({ success := true
         message := publishSuccessMessage op
         policyId := pid
         newStatus := some (claimNextStatus op policy.status) },
       store.map fun r =>
         if r.PK == policyKeyPK ctx.tenantId && r.SK == policyKeySK pid then
           { r with
             PolicyContent := mergePolicy policy
               { status := some (claimNextStatus op policy.status) } pid now
               ctx.username
             Updated := now
             UpdatedBy := ctx.username }
         else r) := by
  cases op with
  | create =>
    have hupd := updatePolicy_fetch_ok now
      ({ status := some "published" } : PolicyUpdates) hfetch
    simp [publishPolicy, hfetch, hupd, claimNextStatus, mergePolicy]
  | update =>
    have hupd := updatePolicy_fetch_ok now
      ({ status := some (if policy.status = "draft" then "published"
          else policy.status) } : PolicyUpdates) hfetch
    simp [publishPolicy, hfetch, hupd, claimNextStatus, mergePolicy]
  | delete =>
    have hupd := updatePolicy_fetch_ok now
      ({ status := some "deleted" } : PolicyUpdates) hfetch
    simp [publishPolicy, hfetch, hupd, claimNextStatus, mergePolicy]

/-- C3: for every policy whose fetch succeeds, the (successful) publish
step reports and stores exactly the next status given by
`claimNextStatus` applied to the event type and the current status. -/
theorem publishPolicy_computes_next_status (ctx : RequestContext)
    (now : String) (store : Store) (pid : String) (op : EventType)
    (policy : Policy) (hfetch : getPolicyById ctx store pid = .ok policy) :
    (publishPolicy ctx now store pid op true true).1.success = true ∧
    (publishPolicy ctx now store pid op true true).1.newStatus =
      some (claimNextStatus op policy.status) ∧
    ∀ r ∈ (publishPolicy ctx now store pid op true true).2,
      r.PK = policyKeyPK ctx.tenantId → r.SK = policyKeySK pid →
      r.PolicyContent.status = claimNextStatus op policy.status := by
  have hpub := publishPolicy_success_eq now op hfetch
  refine ⟨by rw [hpub], by rw [hpub], ?_⟩
  rw [hpub]
  intro r hr hPK hSK
  simp only [List.mem_map] at hr
  obtain ⟨a, _, ha⟩ := hr
  by_cases hk : (a.PK == policyKeyPK ctx.tenantId && a.SK == policyKeySK pid) = true
  · rw [if_pos hk] at ha
    rw [← ha]
    simp [mergePolicy]
  · rw [if_neg hk] at ha
    rw [← ha] at hPK hSK
    simp [hPK, hSK] at hk

/-- Witness for C3: publishing a draft policy on a create event stores and
reports status `published`. -/
theorem publishPolicy_computes_next_status_witness :
    (publishPolicy wCtx "t2" [wRecord] "p1" .create true true).1.newStatus =
      some (claimNextStatus .create wPolicy.status) :=
  (publishPolicy_computes_next_status wCtx "t2" [wRecord] "p1" .create
    (mapRecordToPolicy wCtx wRecord) (by rfl)).2.1

/-! ## C4: publish failure handling -/

lemma publishFailure_spec {ctx : RequestContext} {store : Store}
    {pid : String} {policy : Policy} (now : String) (op : EventType)
    (errMsg : String) (hfetch : getPolicyById ctx store pid = .ok policy) :
    (publishFailure ctx now store pid op errMsg).1.success = false ∧
    (op ≠ .create → (publishFailure ctx now store pid op errMsg).2 = store) ∧
    (op = .create → ∀ r ∈ (publishFailure ctx now store pid op errMsg).2,
      r.PK = policyKeyPK ctx.tenantId → r.SK = policyKeySK pid →
      r.PolicyContent.status = "draft") := by
  refine ⟨rfl, ?_, ?_⟩
  · intro hop
    unfold publishFailure
    simp only [if_neg hop]
  · intro hop
    subst hop
    have hupd := updatePolicy_fetch_ok now
      ({ status := some "draft" } : PolicyUpdates) hfetch
    unfold publishFailure
    rw [if_pos rfl, hupd]
    intro r hr hPK hSK
    simp only [List.mem_map] at hr
    obtain ⟨a, _, ha⟩ := hr
    by_cases hk : (a.PK == policyKeyPK ctx.tenantId && a.SK == policyKeySK pid) = true
    · rw [if_pos hk] at ha
      rw [← ha]
      simp [mergePolicy]
    · rw [if_neg hk] at ha
      rw [← ha] at hPK hSK
      simp [hPK, hSK] at hk

/-- C4: whenever the publish step fails after a successful policy fetch —
here the failure is injected at the simulated external call or at the
status write — `publishPolicy` reports failure, reverts the stored status
to `draft` exactly when the event type is `create`, and for update and
delete events leaves the store untouched. -/
theorem publishPolicy_failure_reverts_iff_create (ctx : RequestContext)
    (now : String) (store : Store) (pid : String) (op : EventType)
    (policy : Policy) (simOk writeOk : Bool)
    (hfetch : getPolicyById ctx store pid = .ok policy)
    (hfail : simOk = false ∨ writeOk = false) :
    (publishPolicy ctx now store pid op simOk writeOk).1.success = false ∧
    (op ≠ .create → (publishPolicy ctx now store pid op simOk writeOk).2 = store) ∧
    (op = .create → ∀ r ∈ (publishPolicy ctx now store pid op simOk writeOk).2,
      r.PK = policyKeyPK ctx.tenantId → r.SK = policyKeySK pid →
      r.PolicyContent.status = "draft") := by
  have key : ∃ m, publishPolicy ctx now store pid op simOk writeOk =
      publishFailure ctx now store pid op m := by
    rcases hfail with h | h
    · subst h
      exact ⟨"External system publish failed", by simp [publishPolicy, hfetch]⟩
    · subst h
      cases simOk with
      | false =>
        exact ⟨"External system publish failed", by simp [publishPolicy, hfetch]⟩
      | true =>
        exact ⟨"Failed to update policy", by cases op <;> simp [publishPolicy, hfetch]⟩
  obtain ⟨m, hpub⟩ := key
  rw [hpub]
  exact publishFailure_spec now op m hfetch

/-- Witness for C4: a failed create publish on a draft policy reports
failure. -/
theorem publishPolicy_failure_reverts_iff_create_witness :
    (publishPolicy wCtx "t2" [wRecord] "p1" .create false true).1.success = false :=
  (publishPolicy_failure_reverts_iff_create wCtx "t2" [wRecord] "p1" .create
    (mapRecordToPolicy wCtx wRecord) false true (by rfl) (Or.inl rfl)).1

/-! ## C1: the blacklist gate short-circuits processing -/

lemma mem_dedupFirst {l : List String} :
    ∀ {seen : List String} {x : String},
      x ∈ dedupFirst l seen ↔ x ∈ l ∧ x ∉ seen := by
  induction l with
  | nil => intro seen x; simp [dedupFirst]
  | cons a as ih =>
    intro seen x
    by_cases ha : a ∈ seen
    · rw [dedupFirst, if_pos ha, ih]
      constructor
      · rintro ⟨hx, hns⟩
        exact ⟨List.mem_cons_of_mem _ hx, hns⟩
      · rintro ⟨hx, hns⟩
        rcases List.mem_cons.mp hx with rfl | hx
        · exact absurd ha hns
        · exact ⟨hx, hns⟩
    · rw [dedupFirst, if_neg ha]
      constructor
      · intro hx
        rcases List.mem_cons.mp hx with rfl | hx
        · exact ⟨List.mem_cons_self _ _, ha⟩
        · have hx' := ih.mp hx
          refine ⟨List.mem_cons_of_mem _ hx'.1, fun hs => hx'.2 ?_⟩
          exact List.mem_cons_of_mem _ hs
      · rintro ⟨hx, hns⟩
        rcases List.mem_cons.mp hx with rfl | hx
        · exact List.mem_cons_self _ _
        · by_cases hxa : x = a
          · subst hxa
            exact List.mem_cons_self _ _
          · exact List.mem_cons_of_mem _ (ih.mpr ⟨hx, by simp [hxa, hns]⟩)

lemma extractSourceIps_mem {ctx : RequestContext} {store : Store}
    {pid : String} {policy : Policy} {rule : PolicyRule} {ip : String}
    (hfetch : getPolicyById ctx store pid = .ok policy)
    (hrule : rule ∈ policy.rules) (hip : rule.source.ip = some ip)
    (hne : ip ≠ "") (hvalid : isValidIpAddress ip = true) :
    ip ∈ extractSourceIpsFromPolicy ctx store pid := by
  unfold extractSourceIpsFromPolicy
  rw [hfetch]
  apply mem_dedupFirst.mpr
  refine ⟨?_, by simp⟩
  apply List.mem_filterMap.mpr
  refine ⟨rule, hrule, ?_⟩
  simp [truthy, hip, hne, hvalid]

/-- C1: for a queued create or update event whose policy holds a rule with
a (valid) `source.ip` lying inside a CIDR of the cached tenant blacklist,
`processPolicyEvent` returns without error, never invokes validation,
publish or the rule-index update, and leaves both tables unchanged — the
event is consumed, not retried. -/
theorem processPolicyEvent_blacklist_skips (ctx : RequestContext)
    (now : String) (store : Store) (ustore : UserStore)
    (event : SQSPolicyEvent) (simOk writeOk : Bool) (rec : PolicyRecord)
    (rule : PolicyRule) (ip cidr : String)
    (hfind : findRecord store ctx.tenantId event.policyId = some rec)
    (htid : rec.TenantID = ctx.tenantId)
    (hstate : rec.State ≠ "deleted")
    (hrule : rule ∈ rec.PolicyContent.rules)
    (hip : rule.source.ip = some ip)
    (hipne : ip ≠ "")
    (hvalid : isValidIpAddress ip = true)
    (hcidr : cidr ∈ ctx.cidrBlackList)
    (hin : isIpInCidr ip cidr = true)
    (_hev : event.eventType = .create ∨ event.eventType = .update) :
    (processPolicyEvent ctx now store ustore event simOk writeOk).result = .ok () ∧
    (processPolicyEvent ctx now store ustore event simOk writeOk).validateCalled = false ∧
    (processPolicyEvent ctx now store ustore event simOk writeOk).publishCalled = false ∧
    (processPolicyEvent ctx now store ustore event simOk writeOk).indexCalled = false ∧
    (processPolicyEvent ctx now store ustore event simOk writeOk).store = store ∧
    (processPolicyEvent ctx now store ustore event simOk writeOk).ustore = ustore := by
  have hfetch := getPolicyById_ok_intro hfind htid hstate
  have hmem : ip ∈ extractSourceIpsFromPolicy ctx store event.policyId :=
    extractSourceIps_mem hfetch
      (by rw [mapRecordToPolicy_rules]; exact hrule) hip hipne hvalid
  have hbl : isIpBlacklisted ctx.cidrBlackList ip = true := by
    unfold isIpBlacklisted
    cases hl : ctx.cidrBlackList with
    | nil => rw [hl] at hcidr; simp at hcidr
    | cons c cs =>
      rw [hl] at hcidr
      simp only [List.isEmpty_cons, Bool.false_eq_true, if_false, List.any_eq_true]
      exact ⟨cidr, hcidr, hin⟩
  obtain ⟨y, hy⟩ : ∃ y,
      (extractSourceIpsFromPolicy ctx store event.policyId).find?
        (fun i => isIpBlacklisted ctx.cidrBlackList i) = some y :=
    Option.isSome_iff_exists.mp (List.find?_isSome.mpr ⟨ip, hmem, hbl⟩)
  have hne2 : (extractSourceIpsFromPolicy ctx store event.policyId).isEmpty = false := by
    cases he : extractSourceIpsFromPolicy ctx store event.policyId with
    | nil => rw [he] at hmem; simp at hmem
    | cons a as => simp
  have hchk : (checkSourceIpBlacklist ctx store event).isBlacklisted = true := by
    unfold checkSourceIpBlacklist
    simp only [hne2, Bool.false_eq_true, if_false, hy]
  unfold processPolicyEvent
  rw [if_pos hchk]
  exact ⟨rfl, rfl, rfl, rfl, rfl, rfl⟩

/-- Witness for C1: the blacklisted-IP policy event is consumed with no
validation, publish or index call. -/
theorem processPolicyEvent_blacklist_skips_witness :
    (processPolicyEvent wCtxBl "t1" [wRecordIp] [] wEventCreate true true).result =
      .ok () :=
  (processPolicyEvent_blacklist_skips wCtxBl "t1" [wRecordIp] [] wEventCreate
    true true wRecordIp wRuleIp "10.5.5.5" "10.0.0.0/8"
    (by rfl) (by rfl) (by decide) (by simp [wRecordIp, wPolicyIp])
    (by rfl) (by decide) (by decide) (by simp [wCtxBl]) (by decide)
    (Or.inl rfl)).1

/-! ## C8: CIDR cache behaviour on a reload failure -/

lemma lookup_setAssoc {α : Type} (l : List (String × α)) (k : String) (v : α) :
    (setAssoc l k v).lookup k = some v := by
  unfold setAssoc
  by_cases hany : l.any (fun p => p.1 == k) = true
  · rw [if_pos hany]
    induction l with
    | nil => simp at hany
    | cons p t ih =>
      obtain ⟨pk, pv⟩ := p
      by_cases hpk : (pk == k) = true
      · rw [List.map_cons, if_pos hpk]
        simp [List.lookup]
      · simp only [List.any_cons, hpk, Bool.false_or] at hany
        rw [List.map_cons, if_neg hpk]
        have hpk2 : ¬(pk = k) := by simpa using hpk
        have hne : (k == pk) = false := by
          rw [beq_eq_false_iff_ne]
          exact fun h => hpk2 h.symm
        simp only [List.lookup, hne]
        exact ih hany
  · rw [if_neg hany]
    induction l with
    | nil => simp [List.lookup]
    | cons p t ih =>
      obtain ⟨pk, pv⟩ := p
      simp only [List.any_cons, Bool.or_eq_true, not_or] at hany
      have h1 : ¬(pk = k) := by simpa using hany.1
      have hne : (k == pk) = false := by
        rw [beq_eq_false_iff_ne]
        exact fun h => h1 h.symm
      simp only [List.cons_append, List.lookup, hne]
      exact ih (by simp [hany.2])

/-- C8 counterexample: with a failing backend and a cold cache,
`getCidrList` returns the error — it does not return an empty list — even
though it does cache an empty list for the tenant.  The claim says the
lookup "degrades to an empty blacklist (fail-open) rather than propagating
the failure", but `refreshCache` rethrows after caching and `getCidrList`
has no catch. -/
theorem getCidrList_propagates_failure :
    (getCidrList (fun _ => .error "backend down") 0 {} "t1").1 =
      .error "backend down" ∧
    (getCidrList (fun _ => .error "backend down") 0 {} "t1").1 ≠
      .ok [] ∧
    (getCidrList (fun _ => .error "backend down") 0 {} "t1").2.cache.lookup "t1" =
      some [] := by
  refine ⟨rfl, by decide, rfl⟩

/-- C8 amended: when the backing store read fails during a reload,
`getCidrList` caches an empty list for the tenant but rethrows, so that
call fails; the caller `loadCidrBlacklist` catches the error and degrades
the context to an empty blacklist (with which no IP is ever blacklisted,
so processing is not blocked), and every `getCidrList` call within the TTL
returns the cached empty list without touching the backend. -/
theorem cidr_reload_failure_fail_open
    (backend : String → Except String (List Cidr)) (st : CidrCacheState)
    (tenantId e : String) (now now2 : Nat)
    (hb : backend tenantId = .error e)
    (hinvalid : isCacheValid st now tenantId = false)
    (httl : now2 - now < CACHE_TTL) :
    (getCidrList backend now st tenantId).1 = .error e ∧
    (getCidrList backend now st tenantId).2.cache.lookup tenantId = some [] ∧
    loadCidrBlacklist backend now st tenantId =
      ([], (getCidrList backend now st tenantId).2) ∧
    (getCidrList backend now2 (getCidrList backend now st tenantId).2 tenantId).1 =
      .ok [] ∧
    (∀ ip, isIpBlacklisted [] ip = false) := by
  have hget : getCidrList backend now st tenantId =
      (.error e,
       { cache := setAssoc st.cache tenantId []
         lastLoaded := setAssoc st.lastLoaded tenantId now }) := by
    unfold getCidrList refreshCache
    rw [hinvalid, hb]
    simp
  refine ⟨by rw [hget], ?_, ?_, ?_, fun ip => rfl⟩
  · rw [hget]
    exact lookup_setAssoc _ _ _
  · unfold loadCidrBlacklist
    rw [hget]
  · rw [hget]
    have hvalid2 : isCacheValid
        { cache := setAssoc st.cache tenantId []
          lastLoaded := setAssoc st.lastLoaded tenantId now } now2 tenantId = true := by
      unfold isCacheValid
      rw [lookup_setAssoc]
      simp [httl]
    unfold getCidrList
    rw [hvalid2]
    simp [lookup_setAssoc]

/-- Witness for C8 (amended): the concrete failing backend of the
counterexample, checked through the amended theorem. -/
theorem cidr_reload_failure_fail_open_witness :
    (loadCidrBlacklist (fun _ => .error "backend down") 0 {} "t1") =
      ([], (getCidrList (fun _ => .error "backend down") 0 {} "t1").2) :=
  (cidr_reload_failure_fail_open (fun _ => .error "backend down") {} "t1"
    "backend down" 0 100 rfl rfl (by decide)).2.2.1

/-! ## C9: the rule-index write of savePolicyRules -/

/-- Modelled from the spec: the source identifier of an index entry is the
rule source user if present (and nonempty), else its source IP if present
(and nonempty), else the literal sentinel `unknown`. -/
def specSourceIdentifier (rule : PolicyRule) : String :=
  if truthy rule.source.user then rule.source.user.getD ""
  else if truthy rule.source.ip then rule.source.ip.getD ""
  else "unknown"

lemma jsOrStr_eq_specSourceIdentifier (rule : PolicyRule) :
    jsOrStr rule.source.user (jsOrStr rule.source.ip "unknown") =
      specSourceIdentifier rule := by
  unfold jsOrStr specSourceIdentifier truthy
  cases rule.source.user with
  | none =>
    cases rule.source.ip with
    | none => rfl
    | some i => by_cases hi : i = "" <;> simp [hi]
  | some u =>
    by_cases hu : u = ""
    · cases rule.source.ip with
      | none => simp [hu]
      | some i => by_cases hi : i = "" <;> simp [hu, hi]
    · simp [hu]

lemma chunk25_flatten_and_le :
    ∀ (n : Nat) (l : List UserPolicyRecord), l.length ≤ n →
      (chunk25 l).flatten = l ∧ ∀ b ∈ chunk25 l, b.length ≤ 25 := by
  intro n
  induction n with
  | zero =>
    intro l h
    rw [Nat.le_zero, List.length_eq_zero] at h
    subst h
    simp [chunk25]
  | succ n ih =>
    intro l h
    cases l with
    | nil => simp [chunk25]
    | cons x xs =>
      rw [chunk25]
      have hd : ((x :: xs).drop 25).length ≤ n := by
        rw [List.length_drop]
        simp only [List.length_cons] at h ⊢
        omega
      obtain ⟨hj, hb⟩ := ih _ hd
      refine ⟨?_, ?_⟩
      · rw [List.flatten_cons, hj, List.take_append_drop]
      · intro b hb2
        rcases List.mem_cons.mp hb2 with rfl | hb2
        · rw [List.length_take]
          exact min_le_left _ _
        · exact hb b hb2

lemma putUserPolicyRecord_mem (st : UserStore) (rec : UserPolicyRecord) :
    rec ∈ putUserPolicyRecord st rec := by
  unfold putUserPolicyRecord
  by_cases h : st.any (fun r => r.PK == rec.PK && r.SK == rec.SK) = true
  · rw [if_pos h]
    obtain ⟨a, ha, hk⟩ := List.any_eq_true.mp h
    exact List.mem_map.mpr ⟨a, ha, by rw [if_pos hk]⟩
  · rw [if_neg h]
    simp

lemma putUserPolicyRecord_overwrites (st : UserStore) (rec r : UserPolicyRecord)
    (hr : r ∈ putUserPolicyRecord st rec) (hPK : r.PK = rec.PK)
    (hSK : r.SK = rec.SK) : r = rec := by
  unfold putUserPolicyRecord at hr
  by_cases h : st.any (fun x => x.PK == rec.PK && x.SK == rec.SK) = true
  · rw [if_pos h] at hr
    obtain ⟨a, ha, hae⟩ := List.mem_map.mp hr
    by_cases hk : (a.PK == rec.PK && a.SK == rec.SK) = true
    · rw [if_pos hk] at hae
      exact hae.symm
    · rw [if_neg hk] at hae
      rw [← hae] at hPK hSK
      exact absurd (by simp [hPK, hSK]) hk
  · rw [if_neg h] at hr
    rcases List.mem_append.mp hr with hin | hin
    · exact absurd (List.any_eq_true.mpr ⟨r, hin, by simp [hPK, hSK]⟩) h
    · simpa using hin

/-- C9: `savePolicyRules` builds exactly one index record per rule of the
policy, keyed by the `tenantId#sourceIdentifier#destination` composite with
the user-then-ip-then-`unknown` source identifier and the rule id as sort
key; the records are issued in batches of at most 25 whose concatenation is
the full per-rule list, the resulting table is the one obtained by writing
every record in order, and each write overwrites any existing entry with
the same key. -/
theorem savePolicyRules_spec (ustore : UserStore) (policy : Policy)
    (tenantId triggeredBy now : String) :
    (savePolicyRules ustore policy tenantId triggeredBy now).2.flatten =
      policy.rules.map (mkUserPolicyRecord tenantId triggeredBy now policy) ∧
    (policy.rules.map (mkUserPolicyRecord tenantId triggeredBy now policy)).length =
      policy.rules.length ∧
    (∀ b ∈ (savePolicyRules ustore policy tenantId triggeredBy now).2,
      b.length ≤ 25) ∧
    (savePolicyRules ustore policy tenantId triggeredBy now).1 =
      (policy.rules.map (mkUserPolicyRecord tenantId triggeredBy now policy)).foldl
        putUserPolicyRecord ustore ∧
    (∀ rule ∈ policy.rules,
      (mkUserPolicyRecord tenantId triggeredBy now policy rule).PK =
        tenantId ++ "#" ++ specSourceIdentifier rule ++ "#"
          ++ jsTemplate rule.destination.domains ∧
      (mkUserPolicyRecord tenantId triggeredBy now policy rule).SK = rule.id ∧
      (mkUserPolicyRecord tenantId triggeredBy now policy rule).Source =
        specSourceIdentifier rule) ∧
    (∀ (st : UserStore) (rec : UserPolicyRecord),
      rec ∈ putUserPolicyRecord st rec ∧
      ∀ r ∈ putUserPolicyRecord st rec, r.PK = rec.PK → r.SK = rec.SK → r = rec) := by
  have hkeys : ∀ rule ∈ policy.rules,
      (mkUserPolicyRecord tenantId triggeredBy now policy rule).PK =
        tenantId ++ "#" ++ specSourceIdentifier rule ++ "#"
          ++ jsTemplate rule.destination.domains ∧
      (mkUserPolicyRecord tenantId triggeredBy now policy rule).SK = rule.id ∧
      (mkUserPolicyRecord tenantId triggeredBy now policy rule).Source =
        specSourceIdentifier rule := by
    intro rule _
    unfold mkUserPolicyRecord
    rw [jsOrStr_eq_specSourceIdentifier]
    exact ⟨rfl, rfl, rfl⟩
  have hput : ∀ (st : UserStore) (rec : UserPolicyRecord),
      rec ∈ putUserPolicyRecord st rec ∧
      ∀ r ∈ putUserPolicyRecord st rec, r.PK = rec.PK → r.SK = rec.SK → r = rec :=
    fun st rec =>
      ⟨putUserPolicyRecord_mem st rec,
       fun r hr hPK hSK => putUserPolicyRecord_overwrites st rec r hr hPK hSK⟩
  by_cases hempty : policy.rules.length = 0
  · rw [List.length_eq_zero] at hempty
    refine ⟨?_, ?_, ?_, ?_, hkeys, hput⟩ <;>
      simp [savePolicyRules, deletePolicyRules, hempty]
  · have hchunk := chunk25_flatten_and_le
      (policy.rules.map (mkUserPolicyRecord tenantId triggeredBy now policy)).length
      (policy.rules.map (mkUserPolicyRecord tenantId triggeredBy now policy))
      (Nat.le_refl _)
    have hsave : savePolicyRules ustore policy tenantId triggeredBy now =
        ((chunk25 (policy.rules.map
            (mkUserPolicyRecord tenantId triggeredBy now policy))).foldl
          (fun st batch => batch.foldl putUserPolicyRecord st) ustore,
         chunk25 (policy.rules.map
            (mkUserPolicyRecord tenantId triggeredBy now policy))) := by
      unfold savePolicyRules deletePolicyRules
      rw [if_neg hempty]
    refine ⟨?_, by simp, ?_, ?_, hkeys, hput⟩
    · rw [hsave]
      exact hchunk.1
    · rw [hsave]
      exact hchunk.2
    · rw [hsave]
      have := List.foldl_flatten putUserPolicyRecord ustore
        (chunk25 (policy.rules.map (mkUserPolicyRecord tenantId triggeredBy now policy)))
      rw [hchunk.1] at this
      exact this.symm

/-- Witness for C9: on a one-rule policy the single issued batch is exactly
the one per-rule record. -/
theorem savePolicyRules_spec_witness :
    (savePolicyRules [] wPolicy "t1" "alice" "t3").2.flatten =
      wPolicy.rules.map (mkUserPolicyRecord "t1" "alice" "t3" wPolicy) :=
  (savePolicyRules_spec [] wPolicy "t1" "alice" "t3").1

/-! ## C10: delete events always fail validation -/

lemma deletePolicy_ok_elim {ctx : RequestContext} {now : String} {store : Store}
    {pid : String} (h : (deletePolicy ctx now store pid).1 = .ok ()) :
    ∃ rec, findRecord store ctx.tenantId pid = some rec ∧
      rec.TenantID = ctx.tenantId ∧ rec.State ≠ "deleted" ∧
      (deletePolicy ctx now store pid).2 =
        store.map fun r =>
          if r.PK == policyKeyPK ctx.tenantId && r.SK == policyKeySK pid then
            { r with State := "deleted", Updated := now, UpdatedBy := ctx.username }
          else r := by
  unfold deletePolicy at h ⊢
  cases hg : getPolicyById ctx store pid with
  | error e => rw [hg] at h; simp at h
  | ok p =>
    obtain ⟨rec, hf, ht, hs, _⟩ := getPolicyById_ok_elim hg
    refine ⟨rec, hf, ht, hs, ?_⟩
    rw [hf]
    have hcond : (rec.TenantID == ctx.tenantId && rec.State != "deleted") = true := by
      simp [ht, hs]
    simp only [hcond, if_true]

lemma apiDeletePolicy_ok_elim {ctx : RequestContext} {now : String}
    {store : Store} {pid : String} {msgEv : String × SQSPolicyEvent}
    (h : (apiDeletePolicy ctx now store pid).1 = .ok msgEv) :
    (deletePolicy ctx now store pid).1 = .ok () ∧
    msgEv.2 = ({ eventType := .delete
                 policyId := pid
                 tenantId := ctx.tenantId
                 timestamp := now
                 triggeredBy := ctx.username } : SQSPolicyEvent) ∧
    (apiDeletePolicy ctx now store pid).2 = (deletePolicy ctx now store pid).2 := by
  unfold apiDeletePolicy at h ⊢
  cases hd : deletePolicy ctx now store pid with
  | mk res st =>
    rw [hd] at h
    cases res with
    | error e => simp at h
    | ok u =>
      cases u
      simp only [Except.ok.injEq] at h
      exact ⟨rfl, by rw [← h], rfl⟩

/-- C10: for every delete event emitted by the CRUD DELETE handler, the
workflow validation step fails: the handler soft-deletes the record before
emitting the event, the validation fetch then raises `NotFoundError` for
the deleted record, the error becomes the single validation issue
(`isValid = false`), and `processPolicyEvent` throws without reaching the
publish or index steps, leaving both tables unchanged. -/
theorem delete_event_validation_always_fails (apiCtx procCtx : RequestContext)
    (now now2 : String) (store : Store) (ustore : UserStore) (pid : String)
    (msgEv : String × SQSPolicyEvent) (simOk writeOk : Bool)
    (hapi : (apiDeletePolicy apiCtx now store pid).1 = .ok msgEv)
    (hten : procCtx.tenantId = apiCtx.tenantId) :
    msgEv.2.eventType = .delete ∧
    validatePolicy procCtx (apiDeletePolicy apiCtx now store pid).2 pid .delete =
      { isValid := false
        issues := ["Failed to retrieve policy for validation: "
          ++ ("Policy with ID " ++ pid ++ " not found")] } ∧
    (processPolicyEvent procCtx now2 (apiDeletePolicy apiCtx now store pid).2
        ustore msgEv.2 simOk writeOk).result =
      .error ("Failed to process policy workflow: Policy validation failed: "
        ++ ("Failed to retrieve policy for validation: "
          ++ ("Policy with ID " ++ pid ++ " not found"))) ∧
    (processPolicyEvent procCtx now2 (apiDeletePolicy apiCtx now store pid).2
        ustore msgEv.2 simOk writeOk).validateCalled = true ∧
    (processPolicyEvent procCtx now2 (apiDeletePolicy apiCtx now store pid).2
        ustore msgEv.2 simOk writeOk).publishCalled = false ∧
    (processPolicyEvent procCtx now2 (apiDeletePolicy apiCtx now store pid).2
        ustore msgEv.2 simOk writeOk).indexCalled = false ∧
    (processPolicyEvent procCtx now2 (apiDeletePolicy apiCtx now store pid).2
        ustore msgEv.2 simOk writeOk).store =
      (apiDeletePolicy apiCtx now store pid).2 ∧
    (processPolicyEvent procCtx now2 (apiDeletePolicy apiCtx now store pid).2
        ustore msgEv.2 simOk writeOk).ustore = ustore := by
  obtain ⟨hdel, hev, hsnd⟩ := apiDeletePolicy_ok_elim hapi
  obtain ⟨rec, hf, ht, hs, hst⟩ := deletePolicy_ok_elim hdel
  set f : PolicyRecord → PolicyRecord := fun r =>
    if r.PK == policyKeyPK apiCtx.tenantId && r.SK == policyKeySK pid then
      { r with State := "deleted", Updated := now, UpdatedBy := apiCtx.username }
    else r with hfdef
  set p : PolicyRecord → Bool := fun r =>
    r.PK == policyKeyPK apiCtx.tenantId && r.SK == policyKeySK pid with hpdef
  have hpf : ∀ r, p (f r) = p r := by
    intro r
    simp only [hfdef, hpdef]
    by_cases hk : (r.PK == policyKeyPK apiCtx.tenantId && r.SK == policyKeySK pid) = true
    · rw [if_pos hk]
    · rw [if_neg hk]
  have hf2 : List.find? p store = some rec := by
    rw [hpdef]
    exact hf
  have hprec : (rec.PK == policyKeyPK apiCtx.tenantId && rec.SK == policyKeySK pid) = true := by
    have h0 := List.find?_some hf2
    simpa only [hpdef] using h0
  have hfind2 : findRecord (apiDeletePolicy apiCtx now store pid).2
      procCtx.tenantId pid = some (f rec) := by
    rw [hsnd, hst, hten]
    show List.find? p (store.map f) = some (f rec)
    rw [List.find?_map]
    have hcomp : (p ∘ f) = p := funext fun r => hpf r
    rw [hcomp, hf2]
    rfl
  have hfrec : f rec = { rec with
      State := "deleted"
      Updated := now
      UpdatedBy := apiCtx.username } := by
    simp only [hfdef]
    rw [if_pos hprec]
  have hget : getPolicyById procCtx (apiDeletePolicy apiCtx now store pid).2 pid =
      .error (.notFound ("Policy with ID " ++ pid ++ " not found")) := by
    unfold getPolicyById
    rw [hfind2, hfrec]
    have htid2 : rec.TenantID = procCtx.tenantId := by rw [hten, ht]
    simp [htid2]
  have hval : validatePolicy procCtx (apiDeletePolicy apiCtx now store pid).2
      pid .delete =
      { isValid := false
        issues := ["Failed to retrieve policy for validation: "
          ++ ("Policy with ID " ++ pid ++ " not found")] } := by
    unfold validatePolicy
    rw [hget]
    rfl
  have hextract : extractSourceIpsFromPolicy procCtx
      (apiDeletePolicy apiCtx now store pid).2 pid = [] := by
    unfold extractSourceIpsFromPolicy
    rw [hget]
  have hchk : (checkSourceIpBlacklist procCtx
      (apiDeletePolicy apiCtx now store pid).2 msgEv.2).isBlacklisted = false := by
    unfold checkSourceIpBlacklist
    rw [hev]
    simp only [hextract]
    rfl
  refine ⟨by rw [hev], hval, ?_⟩
  have hproc : processPolicyEvent procCtx now2 (apiDeletePolicy apiCtx now store pid).2
      ustore msgEv.2 simOk writeOk =
      { result := .error ("Failed to process policy workflow: Policy validation failed: "
          ++ ("Failed to retrieve policy for validation: "
            ++ ("Policy with ID " ++ pid ++ " not found")))
        store := (apiDeletePolicy apiCtx now store pid).2
        ustore := ustore
        validateCalled := true
        publishCalled := false
        indexCalled := false } := by
    unfold processPolicyEvent
    rw [if_neg (by rw [hchk]; exact Bool.false_ne_true)]
    have hpid : msgEv.2.policyId = pid := by rw [hev]
    have hevt : msgEv.2.eventType = EventType.delete := by rw [hev]
    rw [hpid, hevt, hval]
    rfl
  rw [hproc]
  exact ⟨rfl, rfl, rfl, rfl, rfl, rfl⟩

/-- Witness for C10: the concrete delete pipeline on the fixture store. -/
theorem delete_event_validation_always_fails_witness :
    validatePolicy { tenantId := "t1", username := "bob" }
        (apiDeletePolicy { tenantId := "t1", username := "bob" } "t9" [wRecord] "p1").2
        "p1" .delete =
      { isValid := false
        issues := ["Failed to retrieve policy for validation: "
          ++ ("Policy with ID " ++ "p1" ++ " not found")] } :=
  (delete_event_validation_always_fails { tenantId := "t1", username := "bob" }
    { tenantId := "t1", username := "bob" } "t9" "t10" [wRecord] [] "p1"
    ("Policy deleted successfully",
      { eventType := .delete, policyId := "p1", tenantId := "t1",
        timestamp := "t9", triggeredBy := "bob" })
    true true (by rfl) rfl).2.1

/-! ## C6: validation aggregates every violation -/

/-- Modelled from the spec: the number of independent violations of one
rule — one for each failed per-rule check. -/
def ruleViolationCount (rule : PolicyRule) : Nat :=
  (if rule.id = "" || jsTrim rule.id = "" then 1 else 0)
  + (if rule.name = "" || jsTrim rule.name = "" then 1 else 0)
  + (if rule.action = "" || !(["allow", "block"].contains rule.action) then 1 else 0)
  + (if !truthy rule.source.user && !truthy rule.source.ip then 1 else 0)
  + (if !truthy rule.destination.domains then 1 else 0)

/-- Modelled from the spec: the number of independent violations a
validation run should report — one per failed check (a failed fetch counts
as the single retrieval failure). -/
def independentViolationCount (ctx : RequestContext) (store : Store)
    (policyId : String) (op : EventType) : Nat :=
  match getPolicyById ctx store policyId with
  | .error _ => 1
  | .ok policy =>
    (if op = .create ∨ op = .update then
      (if policy.name = "" || jsTrim policy.name = "" then 1 else 0)
      + (if policy.description = "" || jsTrim policy.description = "" then 1 else 0)
      + (if policy.rules.isEmpty then 1 else 0)
      + (policy.rules.map ruleViolationCount).sum
      + (if ((getAllPolicies ctx store).find? fun p =>
            p._id != policyId && jsToLower p.name == jsToLower policy.name).isSome
         then 1 else 0)
     else 0)
    + (match op with
       | .update => if policy.status = "deleted" then 1 else 0
       | .delete => if policy.status = "deleted" then 1 else 0
       | .create => 0)

lemma ruleIssues_length (idx : Nat) (rule : PolicyRule) :
    (ruleIssues idx rule).length = ruleViolationCount rule := by
  unfold ruleIssues ruleViolationCount
  split_ifs <;> simp

lemma contentIssues_length (policy : Policy) :
    (contentIssues policy).length =
      (if policy.name = "" || jsTrim policy.name = "" then 1 else 0)
      + (if policy.description = "" || jsTrim policy.description = "" then 1 else 0)
      + (if policy.rules.isEmpty then 1 else 0)
      + (policy.rules.map ruleViolationCount).sum := by
  unfold contentIssues
  rw [List.length_append, List.length_append, List.length_append,
    List.length_flatMap]
  have hsum : (List.map (List.length ∘ fun p => ruleIssues p.1 p.2)
      policy.rules.enum).sum = (policy.rules.map ruleViolationCount).sum := by
    have hmap : List.map (List.length ∘ fun p => ruleIssues p.1 p.2)
        policy.rules.enum =
        List.map (ruleViolationCount ∘ Prod.snd) policy.rules.enum := by
      apply List.map_congr_left
      intro a _
      exact ruleIssues_length a.1 a.2
    rw [hmap, ← List.map_map, List.enum_map_snd]
  rw [hsum]
  split_ifs <;> simp [Nat.add_assoc]

lemma duplicateNameIssue_length (allPolicies : List Policy) (policyId : String)
    (policy : Policy) :
    (duplicateNameIssue allPolicies policyId policy).length =
      if (allPolicies.find? fun p =>
          p._id != policyId && jsToLower p.name == jsToLower policy.name).isSome
      then 1 else 0 := by
  unfold duplicateNameIssue
  cases h : allPolicies.find? fun p =>
      p._id != policyId && jsToLower p.name == jsToLower policy.name <;> simp

lemma operationIssues_length (op : EventType) (policy : Policy) :
    (operationIssues op policy).length =
      match op with
      | .update => if policy.status = "deleted" then 1 else 0
      | .delete => if policy.status = "deleted" then 1 else 0
      | .create => 0 := by
  unfold operationIssues
  cases op <;> split_ifs <;> simp

/-- C6: `validatePolicy` aggregates instead of failing fast — the issue
list has exactly one entry per independent violation, `isValid` holds
exactly when the list is empty, and (the function being a pure function of
the store and arguments) a second run on unchanged input returns the same
result. -/
theorem validatePolicy_aggregates (ctx : RequestContext) (store : Store)
    (policyId : String) (op : EventType) :
    (validatePolicy ctx store policyId op).issues.length =
      independentViolationCount ctx store policyId op ∧
    ((validatePolicy ctx store policyId op).isValid = true ↔
      (validatePolicy ctx store policyId op).issues = []) ∧
    validatePolicy ctx store policyId op = validatePolicy ctx store policyId op := by
  refine ⟨?_, ?_, rfl⟩
  · unfold validatePolicy independentViolationCount
    cases h : getPolicyById ctx store policyId with
    | error e => rfl
    | ok policy =>
      simp only
      by_cases hop : op = .create ∨ op = .update
      · rw [if_pos hop, if_pos hop, List.length_append, List.length_append,
          contentIssues_length, duplicateNameIssue_length, operationIssues_length]
      · rw [if_neg hop, if_neg hop, List.length_append, operationIssues_length]
        rfl
  · unfold validatePolicy
    cases h : getPolicyById ctx store policyId with
    | error e => simp
    | ok policy => simp [List.length_eq_zero]

/-- Witness for C6 at a policy with three independent violations: empty
description, a rule with a bad action and a rule without a destination. -/
theorem validatePolicy_aggregates_witness :
    (validatePolicy wCtx [wBadRecord] "p1" .create).issues.length =
      independentViolationCount wCtx [wBadRecord] "p1" .create ∧
    (validatePolicy wCtx [wBadRecord] "p1" .create).issues.length = 3 :=
  ⟨(validatePolicy_aggregates wCtx [wBadRecord] "p1" .create).1, by decide⟩

/-! ## C5: the duplicate-name check, with self-exclusion -/

lemma ne_of_prefixes {p₁ p₂ a b : List Char} (hne : p₁ ≠ p₂)
    (hlen : p₁.length = p₂.length) : p₁ ++ a ≠ p₂ ++ b :=
  fun h => hne (List.append_inj h hlen).1

/-- The duplicate-name message for a policy name, written exactly as the
code pushes it. -/
def dupMsg (n : String) : String := "Policy name '" ++ n ++ "' already exists"

lemma dupMsg_data (n : String) :
    (dupMsg n).data = "Policy name '".data ++ (n.data ++ "' already exists".data) := by
  unfold dupMsg
  rw [String.data_append, String.data_append, List.append_assoc]

lemma dupMsg_ne_name_required (n : String) : dupMsg n ≠ "Policy name is required" := by
  intro h
  have hd := congrArg String.data h
  rw [dupMsg_data] at hd
  rw [show ("Policy name is required" : String).data =
    "Policy name i".data ++ "s required".data from rfl] at hd
  exact ne_of_prefixes (by decide) (by decide) hd

lemma dupMsg_ne_description_required (n : String) :
    dupMsg n ≠ "Policy description is required" := by
  intro h
  have hd := congrArg String.data h
  rw [dupMsg_data] at hd
  rw [show ("Policy name '" : String).data =
    "Policy n".data ++ "ame '".data from rfl, List.append_assoc] at hd
  rw [show ("Policy description is required" : String).data =
    "Policy d".data ++ "escription is required".data from rfl] at hd
  exact ne_of_prefixes (by decide) (by decide) hd

lemma dupMsg_ne_one_rule (n : String) :
    dupMsg n ≠ "Policy must have at least one rule" := by
  intro h
  have hd := congrArg String.data h
  rw [dupMsg_data] at hd
  rw [show ("Policy name '" : String).data =
    "Policy n".data ++ "ame '".data from rfl, List.append_assoc] at hd
  rw [show ("Policy must have at least one rule" : String).data =
    "Policy m".data ++ "ust have at least one rule".data from rfl] at hd
  exact ne_of_prefixes (by decide) (by decide) hd

lemma dupMsg_ne_rule_prefixed (n z : String) : dupMsg n ≠ "Rule " ++ z := by
  intro h
  have hd := congrArg String.data h
  rw [dupMsg_data] at hd
  rw [show ("Policy name '" : String).data =
    "P".data ++ "olicy name '".data from rfl, List.append_assoc] at hd
  rw [String.data_append,
    show ("Rule " : String).data = "R".data ++ "ule ".data from rfl,
    List.append_assoc] at hd
  exact ne_of_prefixes (by decide) (by decide) hd

lemma dupMsg_ne_cannot_update (n : String) :
    dupMsg n ≠ "Cannot update deleted policies" := by
  intro h
  have hd := congrArg String.data h
  rw [dupMsg_data] at hd
  rw [show ("Policy name '" : String).data =
    "P".data ++ "olicy name '".data from rfl, List.append_assoc] at hd
  rw [show ("Cannot update deleted policies" : String).data =
    "C".data ++ "annot update deleted policies".data from rfl] at hd
  exact ne_of_prefixes (by decide) (by decide) hd

lemma mem_ruleIssues_shape {s : String} {idx : Nat} {rule : PolicyRule}
    (h : s ∈ ruleIssues idx rule) : ∃ z, s = "Rule " ++ z := by
  unfold ruleIssues at h
  simp only [List.mem_append] at h
  rcases h with ((((h | h) | h) | h) | h) <;>
  · split at h <;> simp only [List.mem_singleton, List.not_mem_nil] at h
    exact ⟨_, h.trans (String.append_assoc _ _ _)⟩

lemma dupMsg_not_mem_contentIssues (policy : Policy) (n : String) :
    dupMsg n ∉ contentIssues policy := by
  intro h
  unfold contentIssues at h
  simp only [List.mem_append] at h
  rcases h with ((h | h) | h) | h
  · split at h <;> simp only [List.mem_singleton, List.not_mem_nil] at h
    exact dupMsg_ne_name_required n h
  · split at h <;> simp only [List.mem_singleton, List.not_mem_nil] at h
    exact dupMsg_ne_description_required n h
  · split at h <;> simp only [List.mem_singleton, List.not_mem_nil] at h
    exact dupMsg_ne_one_rule n h
  · rw [List.mem_flatMap] at h
    obtain ⟨a, _, ha⟩ := h
    obtain ⟨z, hz⟩ := mem_ruleIssues_shape ha
    exact dupMsg_ne_rule_prefixed n z hz

lemma dupMsg_not_mem_operationIssues {op : EventType} (policy : Policy)
    (n : String) (hop : op = .create ∨ op = .update) :
    dupMsg n ∉ operationIssues op policy := by
  intro h
  rcases hop with rfl | rfl
  · simp [operationIssues] at h
  · rw [show operationIssues EventType.update policy =
        (if policy.status = "deleted" then ["Cannot update deleted policies"]
         else []) from rfl] at h
    split at h <;> simp only [List.mem_singleton, List.not_mem_nil] at h
    exact dupMsg_ne_cannot_update n h

lemma mem_duplicateNameIssue_iff (allPolicies : List Policy) (policyId : String)
    (policy : Policy) :
    dupMsg policy.name ∈ duplicateNameIssue allPolicies policyId policy ↔
      ∃ p ∈ allPolicies, p._id ≠ policyId ∧
        jsToLower p.name = jsToLower policy.name := by
  unfold duplicateNameIssue
  cases hfind : allPolicies.find? fun p =>
      p._id != policyId && jsToLower p.name == jsToLower policy.name with
  | none =>
    simp only [List.not_mem_nil, false_iff]
    rintro ⟨p, hp, hne, hlow⟩
    rw [List.find?_eq_none] at hfind
    exact hfind p hp (by simp [hne, hlow])
  | some d =>
    simp only [dupMsg, List.mem_singleton, true_iff]
    have hd := List.find?_some hfind
    have hmem := List.mem_of_find?_eq_some hfind
    simp only [Bool.and_eq_true, bne_iff_ne, beq_iff_eq] at hd
    exact ⟨d, hmem, hd.1, hd.2⟩

/-- C5: for a create or update validation of a successfully fetched policy,
the duplicate-name issue is reported exactly when some other non-deleted
policy of the tenant — different id, same name case-insensitively — exists;
in particular, when every same-named policy is the policy itself, no
duplicate is reported. -/
theorem validatePolicy_duplicate_name_iff (ctx : RequestContext)
    (store : Store) (policyId : String) (op : EventType) (policy : Policy)
    (hfetch : getPolicyById ctx store policyId = .ok policy)
    (hop : op = .create ∨ op = .update) :
    (dupMsg policy.name ∈ (validatePolicy ctx store policyId op).issues ↔
      ∃ p ∈ getAllPolicies ctx store, p._id ≠ policyId ∧
        jsToLower p.name = jsToLower policy.name) ∧
    ((∀ q ∈ getAllPolicies ctx store,
        jsToLower q.name = jsToLower policy.name → q._id = policyId) →
      dupMsg policy.name ∉ (validatePolicy ctx store policyId op).issues) := by
  have hmain : dupMsg policy.name ∈ (validatePolicy ctx store policyId op).issues ↔
      ∃ p ∈ getAllPolicies ctx store, p._id ≠ policyId ∧
        jsToLower p.name = jsToLower policy.name := by
    unfold validatePolicy
    rw [hfetch]
    simp only
    rw [if_pos hop]
    constructor
    · intro h
      simp only [List.mem_append] at h
      rcases h with (h | h) | h
      · exact absurd h (dupMsg_not_mem_contentIssues policy policy.name)
      · exact (mem_duplicateNameIssue_iff _ _ _).mp h
      · exact absurd h (dupMsg_not_mem_operationIssues policy policy.name hop)
    · intro h
      simp only [List.mem_append]
      exact Or.inl (Or.inr ((mem_duplicateNameIssue_iff _ _ _).mpr h))
  refine ⟨hmain, fun hall h => ?_⟩
  obtain ⟨p, hp, hne, hlow⟩ := hmain.mp h
  exact hne (hall p hp hlow)

/-- Witness for C5: the fixture store holds only the policy itself, so
renaming it to its own name must not be reported as a duplicate. -/
theorem validatePolicy_duplicate_name_iff_witness :
    dupMsg wPolicy.name ∉ (validatePolicy wCtx [wRecord] "p1" .update).issues :=
  (validatePolicy_duplicate_name_iff wCtx [wRecord] "p1" .update
    (mapRecordToPolicy wCtx wRecord) (by rfl) (Or.inr rfl)).2 (by decide)

end S3PM
